import Mathlib

/-!
Shallow embedding of `pkg/controller/controller.go` from the
k8s-chart-manager-controller repository.

Modelling conventions:
* Side effects (log lines, REST `Put` calls against the backing store,
  executor invocations, readiness checks) are recorded in an explicit
  `List Effect` trace.
* The external executor (`CreateOrUpdateChartMgr` / `DeleteChartMgr`, which
  live outside this file's source) is an oracle
  `ChartManager → Option Release × Option String`: the Go functions return a
  possibly-nil `*lmhelm.Release` together with a possibly-nil `error`.
* The backing store is an oracle `PutRequest → Option String`: `none` means
  the write succeeded, `some e` a structured write error (e.g. a conflict).
* Time in `waitForReleaseToDeploy` is discretised by wake index `k`: the loop
  body runs at wake `k = 0` immediately, and wake `k` happens `30 * k` seconds
  after invocation (the 30-second ticker).  The 2-minute `time.After` channel
  is modelled by a predicate `deadlineReady : Nat → Bool` saying whether the
  timeout channel has already delivered at wake `k`; faithfulness constraints
  (`deadlineReady k → 120 ≤ 30 * k`, and `150 ≤ 30 * k → deadlineReady k`)
  appear as hypotheses where a theorem needs them, leaving the race at the
  exact 120-second boundary non-deterministic as it is in Go.
* The Go loop has no fuel; the Lean model takes a fuel argument and returns
  `none` for the outcome when the fuel runs out.  Under the deadline
  constraints fuel 6 always suffices, so no behaviour is lost.
* A Go nil-pointer dereference (calling `rls.Status()` on a nil handle) is
  modelled by an `Option`-valued result: `none` means the handler panics.
-/

namespace CMC

/-- Status subresource of a ChartManager, mirroring
`crv1alpha1.ChartMgrStatus` with fields `State`, `ReleaseName`, `Message`. -/
structure ChartMgrStatus where
  state : String
  releaseName : String
  message : String
deriving Repr, DecidableEq

/-- A ChartManager custom resource: identity (`name`, `nspace`), the
create-only flag, and its mutable status.  The chart specification itself is
opaque to the controller and omitted. -/
structure ChartManager where
  name : String
  nspace : String
  createOnly : Bool
  status : ChartMgrStatus
deriving Repr, DecidableEq

/-- A release handle as returned by the executor: `name` is `rls.Name()`,
`status` is `rls.Status()` (a string), and `deployedAt k` is the value
`rls.Deployed()` would report at wake `k` of the convergence wait. -/
structure Release where
  name : String
  status : String
  deployedAt : Nat → Bool

/-- Modelled from the spec: the constant `crv1alpha1.ChartMgrResourcePlural`
lives in the apis package, which is not part of the provided source; the spec
describes the store write as addressed by (name, namespace, collection), so
the collection name is an arbitrary fixed string here. -/
def chartMgrResourcePlural : String := "chartmgrs"

/-- One REST `Put` request against the backing store, as assembled by `put`:
addressed by name and namespace, carrying the full resource document. -/
structure PutRequest where
  name : String
  nspace : String
  resource : String
  body : ChartManager
deriving Repr, DecidableEq

/-- Observable side effects of the controller code, in program order. -/
inductive Effect where
  | callCreateOrUpdate (cmName : String)
  | callDelete (cmName : String)
  | checkDeployed (rlsName : String) (wake : Nat)
  | putStore (req : PutRequest)
  | logError (msg : String)
  | logInfo (msg : String)
  | logDebug (msg : String)
  | startDispatcher
  | blockUntilDone
deriving Repr, DecidableEq

/-- Outcome of the convergence wait loop, tagged with the wake index at which
the loop returned. -/
inductive WaitOutcome where
  | success (wake : Nat)
  | timedOut (wake : Nat)
deriving Repr, DecidableEq

/-- The `for c := ticker.C; ; <-c { select ... }` loop of
`waitForReleaseToDeploy`, one recursive step per wake.  The `select` has a
`default` branch, so at each wake the timeout channel is polled first: if it
is ready the loop returns the timeout error without calling `rls.Deployed()`;
otherwise the `default` branch logs and checks readiness.  `none` as outcome
means the fuel ran out before the loop returned. -/
def waitLoop (rls : Release) (deadlineReady : Nat → Bool) :
    Nat → Nat → List Effect × Option WaitOutcome
  | 0, _ => ([], none)
  | fuel + 1, k =>
    if deadlineReady k then
      ([], some (.timedOut k))
    else
      let checks : List Effect :=
        [.logDebug ("Checking status of release " ++ rls.name),
         .checkDeployed rls.name k]
      if rls.deployedAt k then
        (checks, some (.success k))
      else
        let rest := waitLoop rls deadlineReady fuel (k + 1)
        (checks ++ rest.1, rest.2)

/-- `waitForReleaseToDeploy`: run the wait loop from wake 0 (the first
readiness test happens immediately, before any tick). -/
def waitForReleaseToDeploy (rls : Release) (deadlineReady : Nat → Bool)
    (fuel : Nat) : List Effect × Option WaitOutcome :=
  waitLoop rls deadlineReady fuel 0

/-- The error text of the convergence timeout. -/
def timedOutMsg : String := "Timed out waiting for release to deploy"

/-- The request `put` builds: `Name(...).Namespace(...).Resource(...).Body(...)`. -/
def putRequestOf (chartmgr : ChartManager) : PutRequest :=
  ⟨chartmgr.name, chartmgr.nspace, chartMgrResourcePlural, chartmgr⟩

/-- `put`: issue one blocking update call against the backing store, addressed
by the resource's name and namespace, returning the store's error verbatim. -/
def put (store : PutRequest → Option String) (chartmgr : ChartManager) :
    Option String :=
  store (putRequestOf chartmgr)

/-- Result of `updateChartMgrStatus`: its effect trace, plus the value of the
caller's `chartmgr` object after the call (the Go code only writes through
`chartmgrCopy := chartmgr.DeepCopy()`, never through `chartmgr`). -/
structure SWResult where
  effects : List Effect
  callerObj : ChartManager
deriving Repr, DecidableEq

/-- Body of `updateChartMgrStatus` for a non-nil release handle: log, deep-copy
the resource, overwrite the copy's status with the (state, release name,
message) triple, `put` the copy, and log any put error without returning it. -/
def updateChartMgrStatusCore (store : PutRequest → Option String)
    (chartmgr : ChartManager) (rls : Release) (message : String) : SWResult :=
  let chartmgrCopy : ChartManager :=
    { chartmgr with status := ⟨rls.status, rls.name, message⟩ }
  let putErr := put store chartmgrCopy
  { effects :=
      [.logDebug ("Updating Chart Manager status: state=" ++ rls.status ++
         " release=" ++ rls.name),
       .putStore (putRequestOf chartmgrCopy)] ++
      (match putErr with
       | some e => [.logError ("Failed to update status: " ++ e)]
       | none => []),
    callerObj := chartmgr }

/-- `updateChartMgrStatus` as callable with the raw (possibly nil) handle the
executor returned: the Go code immediately calls `rls.Status()` and
`rls.Name()`, so a nil handle is a nil-pointer dereference, modelled `none`. -/
def updateChartMgrStatus (store : PutRequest → Option String)
    (chartmgr : ChartManager) (rls : Option Release) (message : String) :
    Option SWResult :=
  match rls with
  | none => none
  | some r => some (updateChartMgrStatusCore store chartmgr r message)

/-- Result of a handler step such as `updateStatus`: its effect trace and the
error value it returns to its caller. -/
structure HandlerStep where
  effects : List Effect
  herr : Option String
deriving Repr, DecidableEq

/-- `updateStatus`: wait for the release to deploy; on timeout log an error
and write the error text as the status message, on success log and write the
handle's status string as the message; either way return the wait's error as
this function's own result. -/
def updateStatus (store : PutRequest → Option String) (chartmgr : ChartManager)
    (rls : Release) (deadlineReady : Nat → Bool) (fuel : Nat) :
    Option HandlerStep :=
  match waitForReleaseToDeploy rls deadlineReady fuel with
  | (wes, some (.timedOut _)) =>
    let sw := updateChartMgrStatusCore store chartmgr rls timedOutMsg
    some ⟨wes ++
      [.logError ("Failed to verify that release " ++ rls.name ++
        " deployed: " ++ timedOutMsg)] ++ sw.effects, some timedOutMsg⟩
  | (wes, some (.success _)) =>
    let sw := updateChartMgrStatusCore store chartmgr rls rls.status
    some ⟨wes ++
      [.logInfo ("Chart Manager " ++ chartmgr.name ++ " release " ++
        rls.name ++ " status is Deployed")] ++ sw.effects, none⟩
  | (_, none) => none

/-- `addFunc`: call the executor's create-or-update; on error log and write
the failure status with the returned (possibly nil) handle; on success run
`updateStatus` and, when it returns no error, log the status and creation
lines.  `none` models a nil-handle panic. -/
def addFunc (exec : ChartManager → Option Release × Option String)
    (store : PutRequest → Option String) (deadlineReady : Nat → Bool)
    (fuel : Nat) (obj : ChartManager) : Option (List Effect) :=
  match exec obj with
  | (rls, some e) =>
    (updateChartMgrStatus store obj rls e).map fun sw =>
      .callCreateOrUpdate obj.name :: .logError e :: sw.effects
  | (none, none) => none
  | (some r, none) =>
    (updateStatus store obj r deadlineReady fuel).map fun hs =>
      .callCreateOrUpdate obj.name ::
        hs.effects ++
        match hs.herr with
        | some _ => []
        | none =>
          [.logInfo ("Chart Manager " ++ obj.name ++ " status is " ++ r.status),
           .logInfo ("Created Chart Manager: " ++ obj.name)]

/-- Modelled from the spec: `lmhelm.CreateOnly` lives in the lmhelm package,
which is not part of the provided source; the spec defines it as the pure
predicate reading the resource's `createOnly` flag. -/
def CreateOnly (chartmgr : ChartManager) : Bool :=
  chartmgr.createOnly

/-- `updateFunc`: identical create-or-update and error path on the new object;
on success, if the resource is create-only, log that the update is ignored and
stop (no status write); otherwise run `updateStatus` and, when it returns no
error, log the update line. -/
def updateFunc (exec : ChartManager → Option Release × Option String)
    (store : PutRequest → Option String) (deadlineReady : Nat → Bool)
    (fuel : Nat) (_oldObj newObj : ChartManager) : Option (List Effect) :=
  match exec newObj with
  | (rls, some e) =>
    (updateChartMgrStatus store newObj rls e).map fun sw =>
      .callCreateOrUpdate newObj.name :: .logError e :: sw.effects
  | (none, none) => none
  | (some r, none) =>
    if CreateOnly newObj then
      some [.callCreateOrUpdate newObj.name,
        .logInfo ("CreateOnly mode. Ignoring update of chart manager " ++
          newObj.name ++ ".")]
    else
      (updateStatus store newObj r deadlineReady fuel).map fun hs =>
        .callCreateOrUpdate newObj.name ::
          hs.effects ++
          match hs.herr with
          | some _ => []
          | none => [.logInfo ("Updated Chart Manager: " ++ newObj.name)]

/-- `deleteFunc`: call the executor's delete (discarding the returned handle);
on error log and stop, on success log completion.  It is total: it never
dereferences the handle and never touches the store. -/
def deleteFunc (execDelete : ChartManager → Option Release × Option String)
    (obj : ChartManager) : List Effect :=
  match execDelete obj with
  | (_, some e) =>
    [.callDelete obj.name, .logError ("Failed to delete Chart Manager: " ++ e)]
  | (_, none) =>
    [.callDelete obj.name, .logInfo ("Deleted Chart Manager: " ++ obj.name)]

/-- `manage`: build the informer over the ChartManager collection and start it
on a background goroutine; the Go function unconditionally returns nil. -/
def manage : List Effect × Option String :=
  ([.startDispatcher], none)

/-- `Run`: call `manage`, returning its error if non-nil; otherwise log
startup, block on `<-ctx.Done()`, and return `ctx.Err()`.  Because the block
only completes once the context has been cancelled, `ctx.Err()` there is the
cancellation's cause, which is this model's `ctxCause` argument. -/
def Run (ctxCause : String) : List Effect × Option String :=
  match manage with
  | (es, some e) => (es, some e)
  | (es, none) =>
    (es ++ [.logInfo "Successfully started Chart Manager controller",
       .blockUntilDone], some ctxCause)

/-- Projection: the store update requests appearing in an effect trace. -/
def putRequests (es : List Effect) : List PutRequest :=
  es.filterMap fun e =>
    match e with
    | .putStore req => some req
    | _ => none

/-- Projection: the wake indices of the readiness checks in a trace. -/
def deployChecks (es : List Effect) : List Nat :=
  es.filterMap fun e =>
    match e with
    | .checkDeployed _ k => some k
    | _ => none

/-- A deadline predicate matching the 2-minute timer with no race at the
boundary: the timeout channel is ready at wake `k` exactly when `120 ≤ 30·k`. -/
def drStd : Nat → Bool := fun k => decide (120 ≤ 30 * k)

/-- A release that is already deployed at the first check. -/
def rlsNow : Release := ⟨"rls1", "Deployed", fun _ => true⟩

/-- A release that never reports deployed. -/
def rlsNever : Release := ⟨"rls1", "Failed", fun _ => false⟩

/-- A release that first reports deployed exactly at the 2-minute mark. -/
def rlsLate : Release := ⟨"rls1", "Deployed", fun k => decide (120 ≤ 30 * k)⟩

/-- A sample resource with the create-only flag unset. -/
def cmA : ChartManager := ⟨"cm1", "ns1", false, ⟨"", "", ""⟩⟩

/-- A sample resource with the create-only flag set. -/
def cmCO : ChartManager := ⟨"cm2", "ns1", true, ⟨"", "", ""⟩⟩

/-- A backing store whose writes always succeed. -/
def storeOk : PutRequest → Option String := fun _ => none

/-- A backing store whose writes always fail with a conflict. -/
def storeFail : PutRequest → Option String := fun _ => some "conflict"

/-- An executor whose create-or-update succeeds with `rlsNow`. -/
def execOk : ChartManager → Option Release × Option String :=
  fun _ => (some rlsNow, none)

/-- An executor whose create-or-update fails but returns a usable handle. -/
def execErr : ChartManager → Option Release × Option String :=
  fun _ => (some rlsNever, some "boom")

/-- An executor whose create-or-update fails and returns a nil handle. -/
def execNil : ChartManager → Option Release × Option String :=
  fun _ => (none, some "boom")

/-- An executor whose delete succeeds (the returned handle is unused). -/
def execDelOk : ChartManager → Option Release × Option String :=
  fun _ => (none, none)

theorem waitLoop_no_put (rls : Release) (dr : Nat → Bool) :
    ∀ fuel k, putRequests (waitLoop rls dr fuel k).1 = [] := by
  intro fuel
  induction fuel with
  | zero => intro k; rfl
  | succ n ih =>
    intro k
    simp only [waitLoop]
    cases h : dr k
    · cases h2 : rls.deployedAt k
      · simpa [h, h2, putRequests, List.filterMap_append] using ih (k + 1)
      · simp [h, h2, putRequests]
    · simp [h, putRequests]

theorem waitLoop_success_deployed (rls : Release) (dr : Nat → Bool) :
    ∀ fuel i k, (waitLoop rls dr fuel i).2 = some (.success k) →
      rls.deployedAt k = true := by
  intro fuel
  induction fuel with
  | zero => intro i k h; simp [waitLoop] at h
  | succ n ih =>
    intro i k h
    simp only [waitLoop] at h
    cases hd : dr i
    · cases h2 : rls.deployedAt i
      · rw [hd] at h
        simp only [Bool.false_eq_true, if_false, h2] at h
        exact ih (i + 1) k h
      · rw [hd] at h
        simp only [Bool.false_eq_true, if_false, h2, if_true] at h
        cases h
        exact h2
    · rw [hd] at h
      simp at h


theorem waitLoop_success_of (rls : Release) (dr : Nat → Bool) :
    ∀ n k fuel, n < fuel →
      (∀ j, k ≤ j → j < k + n → dr j = false ∧ rls.deployedAt j = false) →
      dr (k + n) = false → rls.deployedAt (k + n) = true →
      (waitLoop rls dr fuel k).2 = some (.success (k + n)) := by
  intro n
  induction n with
  | zero =>
    intro k fuel hf hpre hdr hdep
    cases fuel with
    | zero => omega
    | succ m => simp [waitLoop, Nat.add_zero] at hdr hdep ⊢; simp [hdr, hdep]
  | succ n ih =>
    intro k fuel hf hpre hdr hdep
    cases fuel with
    | zero => omega
    | succ m =>
      have hk := hpre k (le_refl k) (by omega)
      have e : k + (n + 1) = k + 1 + n := by omega
      simp only [waitLoop, hk.1, hk.2, Bool.false_eq_true, if_false]
      rw [e]
      exact ih (k + 1) m (by omega)
        (fun j hj1 hj2 => hpre j (by omega) (by omega))
        (by rw [← e]; exact hdr) (by rw [← e]; exact hdep)

theorem waitLoop_timedOut_of (rls : Release) (dr : Nat → Bool) :
    ∀ n k fuel, n < fuel →
      (∀ j, k ≤ j → j < k + n → dr j = false ∧ rls.deployedAt j = false) →
      dr (k + n) = true →
      (waitLoop rls dr fuel k).2 = some (.timedOut (k + n)) := by
  intro n
  induction n with
  | zero =>
    intro k fuel hf hpre hdr
    cases fuel with
    | zero => omega
    | succ m => simp [Nat.add_zero] at hdr; simp [waitLoop, hdr]
  | succ n ih =>
    intro k fuel hf hpre hdr
    cases fuel with
    | zero => omega
    | succ m =>
      have hk := hpre k (le_refl k) (by omega)
      have e : k + (n + 1) = k + 1 + n := by omega
      simp only [waitLoop, hk.1, hk.2, Bool.false_eq_true, if_false]
      rw [e]
      exact ih (k + 1) m (by omega)
        (fun j hj1 hj2 => hpre j (by omega) (by omega))
        (by rw [← e]; exact hdr)

theorem waitLoop_no_success (rls : Release) (dr : Nat → Bool)
    (h : ∀ j, rls.deployedAt j = true → dr j = true) :
    ∀ fuel k j, (waitLoop rls dr fuel k).2 ≠ some (.success j) := by
  intro fuel
  induction fuel with
  | zero => intro k j hc; simp [waitLoop] at hc
  | succ n ih =>
    intro k j hc
    simp only [waitLoop] at hc
    cases hd : dr k
    · have hdep : rls.deployedAt k = false := by
        cases h2 : rls.deployedAt k
        · rfl
        · rw [h k h2] at hd; cases hd
      rw [hd] at hc
      simp only [Bool.false_eq_true, if_false, hdep] at hc
      exact ih (k + 1) j hc
    · rw [hd] at hc
      simp at hc

theorem core_putRequests (store : PutRequest → Option String)
    (chartmgr : ChartManager) (rls : Release) (message : String) :
    putRequests (updateChartMgrStatusCore store chartmgr rls message).effects =
      [putRequestOf { chartmgr with status := ⟨rls.status, rls.name, message⟩ }] := by
  simp only [updateChartMgrStatusCore]
  cases h : put store { chartmgr with status := ⟨rls.status, rls.name, message⟩ } <;>
    simp [h, putRequests]

theorem core_deployChecks (store : PutRequest → Option String)
    (chartmgr : ChartManager) (rls : Release) (message : String) :
    deployChecks (updateChartMgrStatusCore store chartmgr rls message).effects = [] := by
  simp only [updateChartMgrStatusCore]
  cases h : put store { chartmgr with status := ⟨rls.status, rls.name, message⟩ } <;>
    simp [h, deployChecks]

theorem putRequests_append (a b : List Effect) :
    putRequests (a ++ b) = putRequests a ++ putRequests b := by
  simp [putRequests, List.filterMap_append]

theorem putRequests_nil : putRequests [] = [] := rfl

theorem putRequests_cons (e : Effect) (l : List Effect) :
    putRequests (e :: l) =
      match e with
      | .putStore req => req :: putRequests l
      | _ => putRequests l := by
  cases e <;> simp [putRequests]

theorem deployChecks_nil : deployChecks [] = [] := rfl

theorem deployChecks_cons (e : Effect) (l : List Effect) :
    deployChecks (e :: l) =
      match e with
      | .checkDeployed _ k => k :: deployChecks l
      | _ => deployChecks l := by
  cases e <;> simp [deployChecks]

theorem deployChecks_append (a b : List Effect) :
    deployChecks (a ++ b) = deployChecks a ++ deployChecks b := by
  simp [deployChecks, List.filterMap_append]

theorem waitFor_no_put (rls : Release) (dr : Nat → Bool) (fuel : Nat)
    (wes : List Effect) (wo : Option WaitOutcome)
    (h : waitForReleaseToDeploy rls dr fuel = (wes, wo)) :
    putRequests wes = [] := by
  have h2 := waitLoop_no_put rls dr fuel 0
  rw [show waitLoop rls dr fuel 0 = (wes, wo) from h] at h2
  exact h2

/-- Claim C3: ConvergenceWaiter behaviour.  With wake `k` happening `30·k` seconds
after invocation and the timeout channel constrained to the 2-minute deadline
(`dr k → 120 ≤ 30·k`, and ready by the tick at 150 s), the waiter checks
readiness immediately at wake 0; it returns success at the wake whose
readiness check first observes `deployed() = true`; success is only ever
returned at a wake where `deployed()` held; and with a never-deploying release
it returns the timeout failure at a wake `k` with `120 ≤ 30·k ≤ 150`, i.e. no
earlier than 2 minutes and no later than 2 minutes plus one 30-second tick. -/
theorem convergence_waiter_contract (rls : Release) (dr : Nat → Bool)
    (hdr1 : ∀ k, dr k = true → 120 ≤ 30 * k)
    (hdr2 : ∀ k, 150 ≤ 30 * k → dr k = true) :
    (rls.deployedAt 0 = true → ∀ fuel, 0 < fuel →
      (waitForReleaseToDeploy rls dr fuel).2 = some (.success 0)) ∧
    (∀ n fuel, n < fuel → (∀ j, j < n → rls.deployedAt j = false) →
      30 * n < 120 → rls.deployedAt n = true →
      (waitForReleaseToDeploy rls dr fuel).2 = some (.success n)) ∧
    (∀ fuel k, (waitForReleaseToDeploy rls dr fuel).2 = some (.success k) →
      rls.deployedAt k = true) ∧
    ((∀ k, rls.deployedAt k = false) →
      ∃ k, (waitForReleaseToDeploy rls dr 6).2 = some (.timedOut k) ∧
        120 ≤ 30 * k ∧ 30 * k ≤ 150) := by
  have hlow : ∀ k, 30 * k < 120 → dr k = false := by
    intro k hk
    cases h : dr k
    · rfl
    · exact absurd (hdr1 k h) (by omega)
  refine ⟨?_, ?_, ?_, ?_⟩
  · intro hdep fuel hf
    simpa using waitLoop_success_of rls dr 0 0 fuel hf
      (fun j h1 h2 => absurd h2 (by omega))
      (by simpa using hlow 0 (by omega)) (by simpa using hdep)
  · intro n fuel hf hpre hlt hdep
    simpa using waitLoop_success_of rls dr n 0 fuel hf
      (fun j h1 h2 => ⟨hlow j (by omega), hpre j (by omega)⟩)
      (by simpa using hlow n (by omega)) (by simpa using hdep)
  · intro fuel k h
    exact waitLoop_success_deployed rls dr fuel 0 k h
  · intro hdep
    cases h4 : dr 4
    · refine ⟨5, ?_, by omega, by omega⟩
      have h5 : dr 5 = true := hdr2 5 (by omega)
      simpa using waitLoop_timedOut_of rls dr 5 0 6 (by omega)
        (fun j h1 h2 => by
          have : j < 4 ∨ j = 4 := by omega
          rcases this with hlt | rfl
          · exact ⟨hlow j (by omega), hdep j⟩
          · exact ⟨h4, hdep 4⟩)
        (by simpa using h5)
    · refine ⟨4, ?_, by omega, by omega⟩
      simpa using waitLoop_timedOut_of rls dr 4 0 6 (by omega)
        (fun j h1 h2 => ⟨hlow j (by omega), hdep j⟩)
        (by simpa using h4)

/-- Witness for C3: with the race-free deadline predicate and a release that
never deploys, the waiter times out between 120 and 150 seconds. -/
theorem convergence_waiter_contract_witness :
    ∃ k, (waitForReleaseToDeploy rlsNever drStd 6).2 = some (.timedOut k) ∧
      120 ≤ 30 * k ∧ 30 * k ≤ 150 :=
  (convergence_waiter_contract rlsNever drStd
    (fun k h => of_decide_eq_true h)
    (fun k h => decide_eq_true (by omega))).2.2.2 (fun k => rfl)

/-- Claim C9: timeout-over-readiness precedence.  At every wake the timeout channel
is examined before readiness: if the deadline has already fired at wake `k`,
the loop returns the timeout error with no readiness-check effect and a result
independent of `deployedAt`; consequently, when the deadline is fired at every
wake at or past 120 s and the release deploys only at or past 120 s, the loop
can never return success. -/
theorem timeout_precedence (rls : Release) (dr : Nat → Bool) :
    (∀ fuel k, dr k = true →
      waitLoop rls dr (fuel + 1) k = ([], some (.timedOut k))) ∧
    ((∀ j, 120 ≤ 30 * j → dr j = true) →
      (∀ j, rls.deployedAt j = true → 120 ≤ 30 * j) →
      ∀ fuel k j, (waitLoop rls dr fuel k).2 ≠ some (.success j)) := by
  constructor
  · intro fuel k h
    simp [waitLoop, h]
  · intro h1 h2 fuel k j
    exact waitLoop_no_success rls dr (fun i hi => h1 i (h2 i hi)) fuel k j

/-- Witness for C9: at wake 4 (120 s) with the deadline fired, the loop
returns the timeout with no readiness check, although the release `rlsLate`
reports deployed at that very wake. -/
theorem timeout_precedence_witness :
    waitLoop rlsLate drStd 1 4 = ([], some (.timedOut 4)) :=
  (timeout_precedence rlsLate drStd).1 0 4 (by decide)

/-- Claim C6: StatusWriter is copy-on-write: it issues exactly one update call,
addressed by the resource's name and namespace, whose body is an updated copy
of the resource carrying the new (state, release name, message) status triple;
the caller's in-memory resource object is unchanged after the call. -/
theorem copy_on_write_status_update (store : PutRequest → Option String)
    (chartmgr : ChartManager) (rls : Release) (message : String) :
    putRequests (updateChartMgrStatusCore store chartmgr rls message).effects =
      [⟨chartmgr.name, chartmgr.nspace, chartMgrResourcePlural,
        { chartmgr with status := ⟨rls.status, rls.name, message⟩ }⟩] ∧
    (updateChartMgrStatusCore store chartmgr rls message).callerObj = chartmgr := by
  refine ⟨?_, rfl⟩
  rw [core_putRequests]
  rfl

/-- Claim C7: status-write failure propagation: `put` returns the store's error
verbatim to its caller; `updateChartMgrStatus` performs exactly one put (no
automatic retry) and logs the failure; and the error `updateStatus` returns to
the handler is independent of the store's behaviour, so a write failure is
never escalated beyond the status-writing step. -/
theorem status_write_failure_propagation :
    (∀ (store : PutRequest → Option String) (chartmgr : ChartManager),
      put store chartmgr = store (putRequestOf chartmgr)) ∧
    (∀ (store : PutRequest → Option String) (chartmgr : ChartManager)
        (rls : Release) (message : String),
      (putRequests
        (updateChartMgrStatusCore store chartmgr rls message).effects).length = 1) ∧
    (∀ (store : PutRequest → Option String) (chartmgr : ChartManager)
        (rls : Release) (message : String) (e : String),
      put store { chartmgr with status := ⟨rls.status, rls.name, message⟩ } =
          some e →
      Effect.logError ("Failed to update status: " ++ e) ∈
        (updateChartMgrStatusCore store chartmgr rls message).effects) ∧
    (∀ (store1 store2 : PutRequest → Option String) (chartmgr : ChartManager)
        (rls : Release) (dr : Nat → Bool) (fuel : Nat),
      (updateStatus store1 chartmgr rls dr fuel).map HandlerStep.herr =
        (updateStatus store2 chartmgr rls dr fuel).map HandlerStep.herr) := by
  refine ⟨fun store chartmgr => rfl, ?_, ?_, ?_⟩
  · intro store chartmgr rls message
    rw [core_putRequests]
    rfl
  · intro store chartmgr rls message e h
    simp [updateChartMgrStatusCore, h]
  · intro store1 store2 chartmgr rls dr fuel
    rcases h : waitForReleaseToDeploy rls dr fuel with ⟨wes, wo⟩
    cases wo with
    | none => simp [updateStatus, h]
    | some o => cases o <;> simp [updateStatus, h]

/-- Witness for C7: with an always-conflicting store, the failure log line is
in the StatusWriter's trace. -/
theorem status_write_failure_propagation_witness :
    Effect.logError ("Failed to update status: " ++ "conflict") ∈
      (updateChartMgrStatusCore storeFail cmA rlsNever "m").effects :=
  status_write_failure_propagation.2.2.1 storeFail cmA rlsNever "m" "conflict" rfl

/-- Claim C1: post-apply sequence.  For a successful create-or-update in `addFunc`
or in `updateFunc` when not suppressed by create-only, exactly one status
write is performed regardless of the convergence wait's outcome: its message
is the wait's error text if the wait failed and the handle's status string if
it succeeded; and `updateStatus` returns the failed wait's error as the
handler's own error while the status write stays in the trace. -/
theorem post_apply_sequence
    (exec : ChartManager → Option Release × Option String)
    (store : PutRequest → Option String) (chartmgr : ChartManager)
    (rls : Release) (dr : Nat → Bool) (fuel : Nat)
    (wes : List Effect) (wo : WaitOutcome)
    (hexec : exec chartmgr = (some rls, none))
    (hco : chartmgr.createOnly = false)
    (hwait : waitForReleaseToDeploy rls dr fuel = (wes, some wo)) :
    (updateStatus store chartmgr rls dr fuel).map
        (fun hs => (putRequests hs.effects, hs.herr)) =
      some ([putRequestOf { chartmgr with status :=
          ⟨rls.status, rls.name, match wo with
            | .timedOut _ => timedOutMsg
            | .success _ => rls.status⟩ }],
        match wo with
        | .timedOut _ => some timedOutMsg
        | .success _ => none) ∧
    (addFunc exec store dr fuel chartmgr).map putRequests =
      some [putRequestOf { chartmgr with status :=
        ⟨rls.status, rls.name, match wo with
          | .timedOut _ => timedOutMsg
          | .success _ => rls.status⟩ }] ∧
    (updateFunc exec store dr fuel chartmgr chartmgr).map putRequests =
      some [putRequestOf { chartmgr with status :=
        ⟨rls.status, rls.name, match wo with
          | .timedOut _ => timedOutMsg
          | .success _ => rls.status⟩ }] := by
  have hwes : putRequests wes = [] :=
    waitFor_no_put rls dr fuel wes (some wo) hwait
  cases wo with
  | timedOut k =>
    have hU : updateStatus store chartmgr rls dr fuel =
        some ⟨wes ++
          [.logError ("Failed to verify that release " ++ rls.name ++
            " deployed: " ++ timedOutMsg)] ++
          (updateChartMgrStatusCore store chartmgr rls timedOutMsg).effects,
          some timedOutMsg⟩ := by
      simp [updateStatus, hwait]
    refine ⟨?_, ?_, ?_⟩
    · simp [hU, putRequests_append, putRequests_cons, putRequests_nil, hwes,
        core_putRequests]
    · simp [addFunc, hexec, hU, putRequests_append, putRequests_cons,
        putRequests_nil, hwes, core_putRequests]
    · simp [updateFunc, hexec, CreateOnly, hco, hU, putRequests_append,
        putRequests_cons, putRequests_nil, hwes, core_putRequests]
  | success k =>
    have hU : updateStatus store chartmgr rls dr fuel =
        some ⟨wes ++
          [.logInfo ("Chart Manager " ++ chartmgr.name ++ " release " ++
            rls.name ++ " status is Deployed")] ++
          (updateChartMgrStatusCore store chartmgr rls rls.status).effects,
          none⟩ := by
      simp [updateStatus, hwait]
    refine ⟨?_, ?_, ?_⟩
    · simp [hU, putRequests_append, putRequests_cons, putRequests_nil, hwes,
        core_putRequests]
    · simp [addFunc, hexec, hU, putRequests_append, putRequests_cons,
        putRequests_nil, hwes, core_putRequests]
    · simp [updateFunc, hexec, CreateOnly, hco, hU, putRequests_append,
        putRequests_cons, putRequests_nil, hwes, core_putRequests]

/-- Witness for C1: a successful apply with an immediately-deployed release
performs exactly one status write carrying the handle's status string, and the
handler reports no error. -/
theorem post_apply_sequence_witness :
    (updateStatus storeOk cmA rlsNow drStd 6).map
        (fun hs => (putRequests hs.effects, hs.herr)) =
      some ([putRequestOf { cmA with status := ⟨"Deployed", "rls1", "Deployed"⟩ }],
        none) ∧
    (addFunc execOk storeOk drStd 6 cmA).map putRequests =
      some [putRequestOf { cmA with status := ⟨"Deployed", "rls1", "Deployed"⟩ }] ∧
    (updateFunc execOk storeOk drStd 6 cmA cmA).map putRequests =
      some [putRequestOf { cmA with status := ⟨"Deployed", "rls1", "Deployed"⟩ }] :=
  post_apply_sequence execOk storeOk cmA rlsNow drStd 6 _ (.success 0)
    rfl rfl rfl

/-- Claim C2: create-only suppression.  With `CreateOnly newObj = true` and a
successful create-or-update, `updateFunc` still invokes the executor, then
logs that the update is ignored and performs no status write at all. -/
theorem create_only_suppression
    (exec : ChartManager → Option Release × Option String)
    (store : PutRequest → Option String) (dr : Nat → Bool) (fuel : Nat)
    (oldObj newObj : ChartManager) (rls : Release)
    (hco : CreateOnly newObj = true)
    (hexec : exec newObj = (some rls, none)) :
    updateFunc exec store dr fuel oldObj newObj =
      some [.callCreateOrUpdate newObj.name,
        .logInfo ("CreateOnly mode. Ignoring update of chart manager " ++
          newObj.name ++ ".")] ∧
    (updateFunc exec store dr fuel oldObj newObj).map putRequests = some [] := by
  have h : updateFunc exec store dr fuel oldObj newObj =
      some [.callCreateOrUpdate newObj.name,
        .logInfo ("CreateOnly mode. Ignoring update of chart manager " ++
          newObj.name ++ ".")] := by
    simp [updateFunc, hexec, hco]
  exact ⟨h, by simp [h, putRequests]⟩

/-- Witness for C2: a create-only resource whose apply succeeds gets the
ignore log line and no store write. -/
theorem create_only_suppression_witness :
    updateFunc execOk storeOk drStd 6 cmCO cmCO =
      some [.callCreateOrUpdate cmCO.name,
        .logInfo ("CreateOnly mode. Ignoring update of chart manager " ++
          cmCO.name ++ ".")] ∧
    (updateFunc execOk storeOk drStd 6 cmCO cmCO).map putRequests = some [] :=
  create_only_suppression execOk storeOk drStd 6 cmCO cmCO rlsNow rfl rfl

/-- Claim C4: executor-error handling.  When create-or-update fails with a usable
handle whose reported status is Failed, `addFunc` (and identically
`updateFunc`) writes exactly one failure status with state `Failed`, the error
text as message and the handle's release name, and performs no readiness
check (the convergence wait is never invoked). -/
theorem executor_error_path
    (exec : ChartManager → Option Release × Option String)
    (store : PutRequest → Option String) (dr : Nat → Bool) (fuel : Nat)
    (oldObj chartmgr : ChartManager) (rls : Release) (e : String)
    (hexec : exec chartmgr = (some rls, some e))
    (hstate : rls.status = "Failed") :
    (addFunc exec store dr fuel chartmgr).map
        (fun es => (putRequests es, deployChecks es)) =
      some ([putRequestOf { chartmgr with
        status := ⟨"Failed", rls.name, e⟩ }], []) ∧
    (updateFunc exec store dr fuel oldObj chartmgr).map
        (fun es => (putRequests es, deployChecks es)) =
      some ([putRequestOf { chartmgr with
        status := ⟨"Failed", rls.name, e⟩ }], []) := by
  rw [← hstate]
  constructor
  · simp [addFunc, hexec, updateChartMgrStatus, putRequests_cons,
      deployChecks_cons, core_putRequests, core_deployChecks]
  · simp [updateFunc, hexec, updateChartMgrStatus, putRequests_cons,
      deployChecks_cons, core_putRequests, core_deployChecks]

/-- Witness for C4: a failed apply writes the Failed status with the error
text and triggers no readiness check. -/
theorem executor_error_path_witness :
    (addFunc execErr storeOk drStd 6 cmA).map
        (fun es => (putRequests es, deployChecks es)) =
      some ([putRequestOf { cmA with
        status := ⟨"Failed", "rls1", "boom"⟩ }], []) ∧
    (updateFunc execErr storeOk drStd 6 cmA cmA).map
        (fun es => (putRequests es, deployChecks es)) =
      some ([putRequestOf { cmA with
        status := ⟨"Failed", "rls1", "boom"⟩ }], []) :=
  executor_error_path execErr storeOk drStd 6 cmA cmA rlsNever "boom" rfl rfl

/-- Claim C5: delete never writes status.  `deleteFunc` invokes the executor's
delete, performs no store write and no readiness check whatever the outcome,
logs and stops on error, and logs completion on success. -/
theorem delete_never_writes_status
    (execDelete : ChartManager → Option Release × Option String)
    (obj : ChartManager) :
    putRequests (deleteFunc execDelete obj) = [] ∧
    deployChecks (deleteFunc execDelete obj) = [] ∧
    Effect.callDelete obj.name ∈ deleteFunc execDelete obj ∧
    (∀ rls e, execDelete obj = (rls, some e) →
      deleteFunc execDelete obj =
        [.callDelete obj.name,
         .logError ("Failed to delete Chart Manager: " ++ e)]) ∧
    (∀ rls, execDelete obj = (rls, none) →
      deleteFunc execDelete obj =
        [.callDelete obj.name,
         .logInfo ("Deleted Chart Manager: " ++ obj.name)]) := by
  refine ⟨?_, ?_, ?_, ?_, ?_⟩
  · rcases h : execDelete obj with ⟨r, err⟩
    cases err <;> simp [deleteFunc, h, putRequests]
  · rcases h : execDelete obj with ⟨r, err⟩
    cases err <;> simp [deleteFunc, h, deployChecks]
  · rcases h : execDelete obj with ⟨r, err⟩
    cases err <;> simp [deleteFunc, h]
  · intro rls e he
    simp [deleteFunc, he]
  · intro rls he
    simp [deleteFunc, he]

/-- Witness for C5: a successful delete only logs completion; its trace holds
no store write and no readiness check. -/
theorem delete_never_writes_status_witness :
    deleteFunc execDelOk cmA =
      [.callDelete cmA.name,
       .logInfo ("Deleted Chart Manager: " ++ cmA.name)] :=
  (delete_never_writes_status execDelOk cmA).2.2.2.2 none rfl

/-- Claim C8: lifecycle contract.  `manage` starts the dispatcher on a background
goroutine and returns no error, and `Run` logs startup, blocks on the
context's done channel and returns the cancellation's cause as its own
result (there is no other way out of the block, so no other value is ever
returned after startup succeeds). -/
theorem run_until_cancelled (ctxCause : String) :
    manage = ([.startDispatcher], none) ∧
    Run ctxCause =
      ([.startDispatcher,
        .logInfo "Successfully started Chart Manager controller",
        .blockUntilDone], some ctxCause) :=
  ⟨rfl, rfl⟩

/-- Witness for C6: a concrete status write issues exactly one update request
and leaves the caller's object unchanged. -/
theorem copy_on_write_status_update_witness :
    putRequests (updateChartMgrStatusCore storeOk cmA rlsNow "m").effects =
      [⟨cmA.name, cmA.nspace, chartMgrResourcePlural,
        { cmA with status := ⟨rlsNow.status, rlsNow.name, "m"⟩ }⟩] ∧
    (updateChartMgrStatusCore storeOk cmA rlsNow "m").callerObj = cmA :=
  copy_on_write_status_update storeOk cmA rlsNow "m"

/-- Witness for C8: cancelling with cause `context canceled` makes `Run`
return exactly that cause after starting the dispatcher and blocking. -/
theorem run_until_cancelled_witness :
    manage = ([.startDispatcher], none) ∧
    Run "context canceled" =
      ([.startDispatcher,
        .logInfo "Successfully started Chart Manager controller",
        .blockUntilDone], some "context canceled") :=
  run_until_cancelled "context canceled"

/-- Claim C10: nil-handle precondition on the error path.  `updateChartMgrStatus`
dereferences the handle unconditionally, so it is defined exactly when the
handle is non-nil; and when the executor returns an error, the whole of
`addFunc` (and `updateFunc`) is defined exactly when the accompanying handle
is non-nil. -/
theorem nil_handle_error_path
    (exec : ChartManager → Option Release × Option String)
    (store : PutRequest → Option String) (dr : Nat → Bool) (fuel : Nat)
    (oldObj chartmgr : ChartManager) (rls : Option Release) (e : String)
    (hexec : exec chartmgr = (rls, some e)) :
    (∀ message, updateChartMgrStatus store chartmgr none message = none) ∧
    (∀ r message,
      (updateChartMgrStatus store chartmgr (some r) message).isSome = true) ∧
    ((addFunc exec store dr fuel chartmgr).isSome = true ↔
      rls.isSome = true) ∧
    ((updateFunc exec store dr fuel oldObj chartmgr).isSome = true ↔
      rls.isSome = true) := by
  refine ⟨fun message => rfl, fun r message => rfl, ?_, ?_⟩
  · cases rls <;> simp [addFunc, hexec, updateChartMgrStatus]
  · cases rls <;> simp [updateFunc, hexec, updateChartMgrStatus]

/-- Witness for C10: with a nil handle alongside the executor's error, the
error-path handler is undefined (a nil-pointer dereference in Go). -/
theorem nil_handle_error_path_witness :
    (addFunc execNil storeOk drStd 6 cmA).isSome = true ↔
      (none : Option Release).isSome = true :=
  (nil_handle_error_path execNil storeOk drStd 6 cmA cmA none "boom" rfl).2.2.1

end CMC
